import Mathlib

/-!
Verification of the descriptor-and-match glue and the parallel-submission
glue of the scipy4cv tutorial notebook.

The notebook's own code is a handful of lines: the remote function
`get_num_matches` (read an image, print its shape, compute SIFT
descriptors, brute-force match them against a reference descriptor array,
return the file name and the match count), an argument-list builder
`args = [(fname, D_1) for fname in fnames]`, a single `map` submission to
an external load-balanced scheduler, and a result-collection loop.

External libraries (OpenCV, ipyparallel) are not part of the repository.
They are embedded as follows: `imread` and `detectAndCompute` are abstract
fallible oracles bundled in `ExtLib`; the brute-force matcher and the
scheduler submission are modelled from the specification's description
(see the doc comments on `nnIdx`, `crossMatches`, `bfmatch`,
`runSubmission`).
-/

/-- A Python-level exception, tagged with the component that raised it. -/
inductive PyErr where
  | err (src msg : String)
deriving DecidableEq

/-- A grayscale image as loaded by `cv2.imread(fname, cv2.IMREAD_GRAYSCALE)`:
a 2-D pixel grid together with its shape. -/
structure Img where
  rows : Nat
  cols : Nat
  pix : List (List Nat)

/-- The string printed by `print frame.shape` for a loaded image. -/
def shapeStr (img : Img) : String :=
  "(" ++ toString img.rows ++ ", " ++ toString img.cols ++ ")"

/-- The `cv2.IMREAD_GRAYSCALE` flag. -/
def IMREAD_GRAYSCALE : Nat := 0

/-- The external vision library: `cv2.imread` and
`cv2.SIFT(nfeatures=n).detectAndCompute`, abstract fallible oracles.
A descriptor set is a list of fixed-width integer-coordinate rows. -/
structure ExtLib where
  imread : String → Nat → Except PyErr Img
  detectAndCompute : Nat → Img → Except PyErr (List (List Int))

/-- Modelled from the spec: the squared L2 distance between two descriptor
rows, the "symmetric L2 distance" of the external matcher.  Exact integer
arithmetic stands in for the library's floating point. -/
def dist2 (a b : List Int) : Int :=
  ((a.zip b).map (fun p => (p.1 - p.2) * (p.1 - p.2))).sum

/-- Least-index argmin: scan the candidate indices, keeping the current
best unless a strictly smaller value appears. -/
def argminFrom (f : Nat → Int) : Nat → List Nat → Nat
  | best, [] => best
  | best, j :: js => argminFrom f (if f j < f best then j else best) js

/-- Modelled from the spec: the index of the nearest neighbour of a query
row among the train rows, under the symmetric L2 distance, ties broken
towards the least index. -/
def nnIdx (q : List Int) (T : List (List Int)) : Nat :=
  argminFrom (fun j => dist2 q (T.getD j [])) 0 (List.range T.length)

/-- Modelled from the spec: the query indices accepted by the matcher's
cross-check criterion — query row i is accepted when its nearest train row
j exists and i is in turn the nearest query row to j. -/
def accepted (Q T : List (List Int)) : List Nat :=
  (List.range Q.length).filter (fun i =>
    decide (nnIdx (Q.getD i []) T < T.length) &&
    decide (nnIdx (T.getD (nnIdx (Q.getD i []) T) []) Q = i))

/-- Modelled from the spec: the correspondence pairs returned by
`cv2.BFMatcher(cv2.NORM_L2, crossCheck=True).match(Q, T)` — each accepted
query index paired with its nearest train index. -/
def crossMatches (Q T : List (List Int)) : List (Nat × Nat) :=
  (accepted Q T).map (fun i => (i, nnIdx (Q.getD i []) T))

/-- The number of matches the modelled brute-force matcher reports. -/
def matchCount (Q T : List (List Int)) : Nat := (crossMatches Q T).length

/-- Dimension compatibility of two descriptor arrays: every row has one
common width ("array-dimension compatibility required by the external
matching routine"). -/
def dimCompatible (Q T : List (List Int)) : Bool :=
  match Q ++ T with
  | [] => true
  | r :: rs => rs.all (fun s => s.length == r.length)

/-- Modelled from the spec: `matcher.match(D_src, D)`.  On
dimension-incompatible inputs it raises the library's own error, otherwise
it returns the cross-checked correspondences. -/
def bfmatch (Q T : List (List Int)) : Except PyErr (List (Nat × Nat)) :=
  if dimCompatible Q T then Except.ok (crossMatches Q T)
  else Except.error (PyErr.err "cv2" "descriptor dimension mismatch")

/-- The embedding of the notebook's `get_num_matches`.  The argument is
the pair `(fname, D_src)` destructured by the first line of the Python
body.  The first component of the result is the standard output produced
by the call (the `print frame.shape` line), the second its return value or
the propagated exception. -/
def get_num_matches (lib : ExtLib) (arg : String × List (List Int)) :
    List String × Except PyErr (String × Nat) :=
  match lib.imread arg.1 IMREAD_GRAYSCALE with
  | .error e => ([], .error e)
  | .ok frame =>
      match lib.detectAndCompute 5000 frame with
      | .error e => ([shapeStr frame], .error e)
      | .ok D =>
          match bfmatch arg.2 D with
          | .error e => ([shapeStr frame], .error e)
          | .ok ms => ([shapeStr frame], .ok (arg.1, ms.length))

/-- Store-passing translation of `get_num_matches`: descriptor arrays live
in a heap of array cells and the caller passes its reference array `D_src`
by reference, as Python passes the numpy array.  Every statement of the
body threads the heap through, so a mutation of the caller's array would
show up as a changed heap. -/
def get_num_matchesHeap (lib : ExtLib) (heap : Nat → List (List Int))
    (fname : String) (dsrcRef : Nat) :
    (Nat → List (List Int)) × (List String × Except PyErr (String × Nat)) :=
  let D_src := heap dsrcRef
  match lib.imread fname IMREAD_GRAYSCALE with
  | .error e => (heap, ([], .error e))
  | .ok frame =>
      match lib.detectAndCompute 5000 frame with
      | .error e => (heap, ([shapeStr frame], .error e))
      | .ok D =>
          match bfmatch D_src D with
          | .error e => (heap, ([shapeStr frame], .error e))
          | .ok ms => (heap, ([shapeStr frame], .ok (fname, ms.length)))

/-- The argument-list builder `args = [(fname, D_1) for fname in fnames]`. -/
def mkArgs (fnames : List String) (D_1 : List (List Int)) :
    List (String × List (List Int)) :=
  fnames.map (fun fname => (fname, D_1))

/-- The submission cell `async_res = get_num_matches.map(args)`.  The
external load-balanced map primitive is the abstract oracle `sched`
(modelled from the spec: the scheduler owns all scheduling, worker
assignment and result aggregation); the glue builds the argument list and
hands it to `sched` in one call, with no handler around it. -/
def runSubmission
    (sched : List (String × List (List Int)) → Except PyErr (List (String × Nat)))
    (fnames : List String) (D_1 : List (List Int)) :
    Except PyErr (List (String × Nat)) :=
  sched (mkArgs fnames D_1)

/-- The collection cell `for f, n in async_res: print f, n`: one output
line per completed (path, count) pair, any exception propagating. -/
def collectCell (res : Except PyErr (List (String × Nat))) :
    List String × Except PyErr Unit :=
  match res with
  | .error e => ([], .error e)
  | .ok rs => (rs.map (fun r => r.1 ++ " " ++ toString r.2), .ok ())

/-! ## Matcher lemmas -/

theorem argminFrom_keep (f : Nat → Int) (best : Nat) (l : List Nat)
    (h : ∀ j ∈ l, ¬ f j < f best) : argminFrom f best l = best := by
  induction l generalizing best with
  | nil => rfl
  | cons j js ih =>
      simp only [argminFrom]
      rw [if_neg (h j (List.mem_cons_self _ _))]
      exact ih best (fun k hk => h k (List.mem_cons_of_mem _ hk))

theorem argminFrom_strict (f : Nat → Int) (i : Nat) :
    ∀ (l : List Nat) (best : Nat), i ∈ l → f i < f best →
      (∀ j ∈ l, j ≠ i → f i < f j) → argminFrom f best l = i := by
  intro l
  induction l with
  | nil => intro best h _ _; exact absurd h (List.not_mem_nil i)
  | cons j js ih =>
      intro best hmem hlt hall
      simp only [argminFrom]
      by_cases hji : j = i
      · subst hji
        rw [if_pos hlt]
        refine argminFrom_keep f j js (fun k hk => ?_)
        by_cases hkj : k = j
        · subst hkj; exact lt_irrefl (f k)
        · exact lt_asymm (hall k (List.mem_cons_of_mem _ hk) hkj)
      · have hi' : i ∈ js := by
          rcases List.mem_cons.mp hmem with h | h
          · exact absurd h.symm hji
          · exact h
        have hfij : f i < f j :=
          hall j (List.mem_cons_self _ _) hji
        by_cases hc : f j < f best
        · rw [if_pos hc]
          exact ih j hi' hfij (fun k hk hki => hall k (List.mem_cons_of_mem _ hk) hki)
        · rw [if_neg hc]
          exact ih best hi' hlt (fun k hk hki => hall k (List.mem_cons_of_mem _ hk) hki)

theorem dist2_cons (x y : Int) (xs ys : List Int) :
    dist2 (x :: xs) (y :: ys) = (x - y) * (x - y) + dist2 xs ys := by
  simp [dist2, List.zip_cons_cons]

theorem dist2_self (a : List Int) : dist2 a a = 0 := by
  induction a with
  | nil => rfl
  | cons x xs ih => rw [dist2_cons, ih]; ring

theorem dist2_nonneg (a : List Int) : ∀ b, 0 ≤ dist2 a b := by
  induction a with
  | nil => intro b; simp [dist2]
  | cons x xs ih =>
      intro b
      cases b with
      | nil => simp [dist2]
      | cons y ys =>
          rw [dist2_cons]
          exact add_nonneg (mul_self_nonneg _) (ih ys)

theorem dist2_pos (a : List Int) :
    ∀ b, a.length = b.length → a ≠ b → 0 < dist2 a b := by
  induction a with
  | nil =>
      intro b hl hne
      cases b with
      | nil => exact absurd rfl hne
      | cons y ys => simp at hl
  | cons x xs ih =>
      intro b hl hne
      cases b with
      | nil => simp at hl
      | cons y ys =>
          rw [dist2_cons]
          by_cases hxy : x = y
          · subst hxy
            have hne' : xs ≠ ys := fun h => hne (by rw [h])
            have hpos := ih ys (by simpa using hl) hne'
            simpa using hpos
          · have h1 : 0 < (x - y) * (x - y) :=
              mul_self_pos.mpr (sub_ne_zero_of_ne hxy)
            exact add_pos_of_pos_of_nonneg h1 (dist2_nonneg xs ys)

theorem getD_eq_get_of_lt {α : Type} (l : List α) (d : α) (n : Nat)
    (h : n < l.length) : l.getD n d = l.get ⟨n, h⟩ := by
  rw [List.getD_eq_getElem l d h, List.get_eq_getElem]

theorem nnIdx_self (D : List (List Int)) (w : Nat)
    (hw : ∀ d ∈ D, d.length = w) (hnd : D.Nodup)
    (i : Nat) (hi : i < D.length) :
    nnIdx (D.getD i []) D = i := by
  have key : ∀ j, j < D.length → j ≠ i →
      0 < dist2 (D.getD i []) (D.getD j []) := by
    intro j hj hji
    apply dist2_pos
    · rw [getD_eq_get_of_lt D [] i hi, getD_eq_get_of_lt D [] j hj,
        hw _ (D.get_mem _ _), hw _ (D.get_mem _ _)]
    · rw [getD_eq_get_of_lt D [] i hi, getD_eq_get_of_lt D [] j hj]
      intro heq
      have := (hnd.get_inj_iff).mp heq
      exact hji (congrArg Fin.val this).symm
  have hfi : dist2 (D.getD i []) (D.getD i []) = 0 := dist2_self _
  by_cases hi0 : i = 0
  · subst hi0
    unfold nnIdx
    apply argminFrom_keep
    intro j hj
    exact not_lt.mpr (by rw [hfi]; exact dist2_nonneg _ _)
  · unfold nnIdx
    apply argminFrom_strict
    · rw [List.mem_range]; exact hi
    · rw [hfi]
      exact key 0 (lt_of_le_of_lt (Nat.zero_le i) hi) (fun h => hi0 h.symm)
    · intro j hj hji
      rw [List.mem_range] at hj
      rw [hfi]
      exact key j hj hji

theorem accepted_self (D : List (List Int)) (w : Nat)
    (hw : ∀ d ∈ D, d.length = w) (hnd : D.Nodup) :
    accepted D D = List.range D.length := by
  apply List.filter_eq_self.mpr
  intro i hi
  rw [List.mem_range] at hi
  have h1 := nnIdx_self D w hw hnd i hi
  simp only [Bool.and_eq_true, decide_eq_true_eq]
  rw [h1]
  exact ⟨hi, h1⟩

theorem matchCount_eq_length_accepted (Q T : List (List Int)) :
    matchCount Q T = (accepted Q T).length := by
  unfold matchCount crossMatches
  rw [List.length_map]

theorem mem_accepted (Q T : List (List Int)) (i : Nat) :
    i ∈ accepted Q T ↔
      i < Q.length ∧ nnIdx (Q.getD i []) T < T.length ∧
        nnIdx (T.getD (nnIdx (Q.getD i []) T) []) Q = i := by
  unfold accepted
  rw [List.mem_filter, List.mem_range]
  simp

theorem nodup_accepted (Q T : List (List Int)) : (accepted Q T).Nodup :=
  (List.nodup_range _).filter _

theorem matchCount_le_left (Q T : List (List Int)) :
    matchCount Q T ≤ Q.length := by
  rw [matchCount_eq_length_accepted]
  unfold accepted
  calc (List.filter _ (List.range Q.length)).length
      ≤ (List.range Q.length).length := List.length_filter_le _ _
    _ = Q.length := List.length_range _

theorem matchCount_le_right (Q T : List (List Int)) :
    matchCount Q T ≤ T.length := by
  have hinj : ∀ a ∈ accepted Q T, ∀ b ∈ accepted Q T,
      nnIdx (Q.getD a []) T = nnIdx (Q.getD b []) T → a = b := by
    intro a ha b hb heq
    obtain ⟨-, -, hra⟩ := (mem_accepted Q T a).mp ha
    obtain ⟨-, -, hrb⟩ := (mem_accepted Q T b).mp hb
    rw [← hra, ← hrb, heq]
  have hmapnd :
      ((accepted Q T).map (fun i => nnIdx (Q.getD i []) T)).Nodup :=
    List.Nodup.map_on hinj (nodup_accepted Q T)
  have hsub :
      ((accepted Q T).map (fun i => nnIdx (Q.getD i []) T)).toFinset ⊆
        Finset.range T.length := by
    intro x hx
    rw [List.mem_toFinset, List.mem_map] at hx
    obtain ⟨i, hi, rfl⟩ := hx
    obtain ⟨-, hlt, -⟩ := (mem_accepted Q T i).mp hi
    exact Finset.mem_range.mpr hlt
  calc matchCount Q T
      = (accepted Q T).length := matchCount_eq_length_accepted Q T
    _ = ((accepted Q T).map (fun i => nnIdx (Q.getD i []) T)).length :=
        (List.length_map _ _).symm
    _ = ((accepted Q T).map (fun i => nnIdx (Q.getD i []) T)).toFinset.card :=
        (List.toFinset_card_of_nodup hmapnd).symm
    _ ≤ (Finset.range T.length).card := Finset.card_le_card hsub
    _ = T.length := Finset.card_range _

theorem matchCount_eq_card_mutual (Q T : List (List Int)) :
    matchCount Q T =
      ((Finset.range Q.length ×ˢ Finset.range T.length).filter
        (fun p => nnIdx (Q.getD p.1 []) T = p.2 ∧
          nnIdx (T.getD p.2 []) Q = p.1)).card := by
  rw [matchCount_eq_length_accepted,
    ← List.toFinset_card_of_nodup (nodup_accepted Q T)]
  apply Finset.card_bij (fun i _ => (i, nnIdx (Q.getD i []) T))
  · intro i hi
    rw [List.mem_toFinset] at hi
    obtain ⟨hiq, hlt, hrev⟩ := (mem_accepted Q T i).mp hi
    rw [Finset.mem_filter, Finset.mem_product, Finset.mem_range,
      Finset.mem_range]
    exact ⟨⟨hiq, hlt⟩, rfl, hrev⟩
  · intro a ha b hb heq
    exact congrArg Prod.fst heq
  · intro b hb
    rw [Finset.mem_filter, Finset.mem_product] at hb
    obtain ⟨⟨hb1, hb2⟩, hnn, hrev⟩ := hb
    refine ⟨b.1, ?_, ?_⟩
    · rw [List.mem_toFinset, mem_accepted]
      refine ⟨Finset.mem_range.mp hb1, ?_, ?_⟩
      · rw [hnn]; exact Finset.mem_range.mp hb2
      · rw [hnn]; exact hrev
    · rw [hnn]

theorem get_num_matches_run (lib : ExtLib) (fname : String)
    (D_src : List (List Int)) (img : Img) (D : List (List Int))
    (h1 : lib.imread fname IMREAD_GRAYSCALE = .ok img)
    (h2 : lib.detectAndCompute 5000 img = .ok D)
    (h3 : dimCompatible D_src D = true) :
    get_num_matches lib (fname, D_src) =
      ([shapeStr img], .ok (fname, matchCount D_src D)) := by
  unfold get_num_matches bfmatch
  rw [h1]
  simp only [h2, h3, if_true]
  rfl

theorem get_num_matches_run_mismatch (lib : ExtLib) (fname : String)
    (D_src : List (List Int)) (img : Img) (D : List (List Int))
    (h1 : lib.imread fname IMREAD_GRAYSCALE = .ok img)
    (h2 : lib.detectAndCompute 5000 img = .ok D)
    (h3 : dimCompatible D_src D = false) :
    get_num_matches lib (fname, D_src) =
      ([shapeStr img],
        .error (PyErr.err "cv2" "descriptor dimension mismatch")) := by
  unfold get_num_matches bfmatch
  rw [h1]
  simp [h2, h3]

/-! ## Concrete fixtures for evaluating the theorems -/

/-- A concrete 2-by-2 test image. -/
def imgW : Img := ⟨2, 2, [[0, 0], [0, 0]]⟩

/-- A concrete external-library instantiation: every read returns `imgW`
and the detector always reports the single descriptor row `[0]`. -/
def libW : ExtLib :=
  ⟨fun _ _ => Except.ok imgW, fun _ _ => Except.ok [[0]]⟩

/-- A second filesystem oracle that serves `imgW` for the grayscale flag
only; it agrees with `libW.imread` at that flag but not elsewhere. -/
def fsW2 : String → Nat → Except PyErr Img :=
  fun _ flag => if flag = IMREAD_GRAYSCALE then Except.ok imgW
    else Except.error (PyErr.err "cv2" "unreadable")

/-- A concrete scheduler oracle that answers every work unit with count 0. -/
def schedW : List (String × List (List Int)) → Except PyErr (List (String × Nat)) :=
  fun args => Except.ok (args.map (fun a => (a.1, 0)))

/-- The exception surfaced in the captured notebook session. -/
def badYield : PyErr := PyErr.err "tornado.gen" "yielded unknown object"

/-! ## Claim theorems -/

/-- Claim C1: for every argument pair, whenever the external read,
descriptor computation and matcher succeed, `get_num_matches` reads the
image at the given path, computes that image's descriptors, matches them
against the reference descriptor array, and returns the pair of exactly
the input file path and the integer match count. -/
theorem get_num_matches_contract (lib : ExtLib) (fname : String)
    (D_src : List (List Int)) (img : Img) (D : List (List Int))
    (h1 : lib.imread fname IMREAD_GRAYSCALE = .ok img)
    (h2 : lib.detectAndCompute 5000 img = .ok D)
    (h3 : dimCompatible D_src D = true) :
    (get_num_matches lib (fname, D_src)).2 =
      Except.ok (fname, matchCount D_src D) := by
  rw [get_num_matches_run lib fname D_src img D h1 h2 h3]

theorem get_num_matches_contract_wit :
    (get_num_matches libW ("a.png", [[0]])).2 =
      Except.ok ("a.png", matchCount [[0]] [[0]]) :=
  get_num_matches_contract libW "a.png" [[0]] imgW [[0]] rfl rfl rfl

/-- Claim C2 counterexample: `get_num_matches` does write output — on a
successfully read image, the `print frame.shape` line of the body emits
the image shape on standard output, so the call's side effects are not
limited to the file read. -/
theorem get_num_matches_writes_output :
    (get_num_matches libW ("a.png", [[0]])).1 ≠ [] := by
  have he : (get_num_matches libW ("a.png", [[0]])).1 = [shapeStr imgW] := rfl
  rw [he]
  exact List.cons_ne_nil _ _

/-- Claim C2 amended: the only side effects of `get_num_matches` are the
image read and one line printed on standard output — the shape of the
loaded image; nothing is printed when the read itself fails, and no other
outside state is modified. -/
theorem get_num_matches_output_only_shape (lib : ExtLib)
    (arg : String × List (List Int)) :
    (get_num_matches lib arg).1 =
      (match lib.imread arg.1 IMREAD_GRAYSCALE with
       | .ok img => [shapeStr img]
       | .error _ => []) := by
  unfold get_num_matches
  cases h1 : lib.imread arg.1 IMREAD_GRAYSCALE with
  | error e => rfl
  | ok img =>
      dsimp only
      cases h2 : lib.detectAndCompute 5000 img with
      | error e => rfl
      | ok D =>
          dsimp only
          cases h3 : bfmatch arg.2 D with
          | error e => rfl
          | ok ms => rfl

/-- Claim C3: the glue has no handler and raises nothing of its own — a
run of `get_num_matches` fails with exception `e` exactly when one of the
external library calls (the image read, the descriptor computation, or the
matcher) raises `e`, and that exception is propagated verbatim. -/
theorem get_num_matches_error_propagation (lib : ExtLib)
    (arg : String × List (List Int)) (e : PyErr) :
    (get_num_matches lib arg).2 = Except.error e ↔
      (lib.imread arg.1 IMREAD_GRAYSCALE = .error e ∨
       (∃ img, lib.imread arg.1 IMREAD_GRAYSCALE = .ok img ∧
          lib.detectAndCompute 5000 img = .error e) ∨
       (∃ img D, lib.imread arg.1 IMREAD_GRAYSCALE = .ok img ∧
          lib.detectAndCompute 5000 img = .ok D ∧
          bfmatch arg.2 D = .error e)) := by
  unfold get_num_matches
  cases h1 : lib.imread arg.1 IMREAD_GRAYSCALE with
  | error e1 => simp
  | ok img =>
      cases h2 : lib.detectAndCompute 5000 img with
      | error e2 => simp [h2]
      | ok D =>
          cases h3 : bfmatch arg.2 D with
          | error e3 => simp [h2, h3]
          | ok ms => simp [h2, h3]

/-- Claim C4: the submission glue builds exactly one work unit per file
name — the pair of that path with the single fixed reference array `D_1`,
in the same order and of the same length as the file-name list — submits
the whole list in one `map` call to the scheduler, and the collection loop
prints one (path, count) line per returned pair. -/
theorem submission_builds_args
    (sched : List (String × List (List Int)) → Except PyErr (List (String × Nat)))
    (fnames : List String) (D_1 : List (List Int)) :
    (mkArgs fnames D_1).length = fnames.length ∧
    (∀ i, i < fnames.length →
      (mkArgs fnames D_1).getD i ("", []) = (fnames.getD i "", D_1)) ∧
    runSubmission sched fnames D_1 = sched (mkArgs fnames D_1) ∧
    (∀ rs, runSubmission sched fnames D_1 = Except.ok rs →
      collectCell (runSubmission sched fnames D_1) =
        (rs.map (fun r => r.1 ++ " " ++ toString r.2), Except.ok ())) := by
  refine ⟨by simp [mkArgs], ?_, rfl, ?_⟩
  · intro i hi
    have hi' : i < (mkArgs fnames D_1).length := by
      unfold mkArgs; rw [List.length_map]; exact hi
    rw [List.getD_eq_getElem _ _ hi', List.getD_eq_getElem _ _ hi]
    simp [mkArgs]
  · intro rs hrs
    unfold collectCell
    rw [hrs]

theorem submission_builds_args_wit :
    (mkArgs ["a.png", "b.png"] [[0]]).getD 0 ("", []) = ("a.png", [[0]]) ∧
    collectCell (runSubmission schedW ["a.png", "b.png"] [[0]]) =
      ([("a.png", 0), ("b.png", 0)].map
        (fun r => r.1 ++ " " ++ toString r.2), Except.ok ()) := by
  have h := submission_builds_args schedW ["a.png", "b.png"] [[0]]
  exact ⟨h.2.1 0 (by decide), h.2.2.2 [("a.png", 0), ("b.png", 0)] rfl⟩

/-- Claim C5 counterexample: self-matching is not always full — for the
descriptor set with two identical rows `[0]`, cross-checked self-matching
accepts a single pair, so the match count differs from the descriptor
count. -/
theorem matchCount_self_duplicate :
    matchCount [[0], [0]] [[0], [0]] ≠ ([[0], [0]] : List (List Int)).length := by
  decide

/-- Claim C5 amended: for every descriptor set `D` of uniform row width
whose rows are pairwise distinct, matching `D` against itself with the
modelled cross-checked L2 brute-force matcher yields a match count equal
to the number of descriptors in `D`.  (With duplicate rows the cross-check
drops pairs, so the unamended claim fails.) -/
theorem matchCount_self_nodup (D : List (List Int)) (w : Nat)
    (hw : ∀ d ∈ D, d.length = w) (hnd : D.Nodup) :
    matchCount D D = D.length := by
  rw [matchCount_eq_length_accepted, accepted_self D w hw hnd,
    List.length_range]

theorem matchCount_self_nodup_wit :
    matchCount [[0], [1]] [[0], [1]] = ([[0], [1]] : List (List Int)).length :=
  matchCount_self_nodup [[0], [1]] 1 (by decide) (by decide)

/-- Claim C6: on a successful run, the integer returned by
`get_num_matches` equals the number of mutual nearest-neighbour pairs
between the reference descriptor set and the query image's descriptor set
under the (squared) L2 norm — the matcher's cross-check criterion. -/
theorem get_num_matches_counts_mutual_nn (lib : ExtLib) (fname : String)
    (D_src : List (List Int)) (img : Img) (D : List (List Int))
    (h1 : lib.imread fname IMREAD_GRAYSCALE = .ok img)
    (h2 : lib.detectAndCompute 5000 img = .ok D)
    (h3 : dimCompatible D_src D = true) :
    (get_num_matches lib (fname, D_src)).2 =
      Except.ok (fname,
        ((Finset.range D_src.length ×ˢ Finset.range D.length).filter
          (fun p => nnIdx (D_src.getD p.1 []) D = p.2 ∧
            nnIdx (D.getD p.2 []) D_src = p.1)).card) := by
  rw [get_num_matches_run lib fname D_src img D h1 h2 h3,
    matchCount_eq_card_mutual]

theorem get_num_matches_counts_mutual_nn_wit :
    (get_num_matches libW ("a.png", [[0]])).2 =
      Except.ok ("a.png",
        ((Finset.range ([[0]] : List (List Int)).length ×ˢ
            Finset.range ([[0]] : List (List Int)).length).filter
          (fun p => nnIdx (([[0]] : List (List Int)).getD p.1 []) [[0]] = p.2 ∧
            nnIdx (([[0]] : List (List Int)).getD p.2 []) [[0]] = p.1)).card) :=
  get_num_matches_counts_mutual_nn libW "a.png" [[0]] imgW [[0]] rfl rfl rfl

/-- Claim C7: the submission glue wraps the scheduler call in no handler —
when the external scheduler raises (as in the captured `BadYieldError`
session), both the submission and the collection loop surface exactly that
exception, with no recovery and no retry. -/
theorem submission_error_propagation
    (sched : List (String × List (List Int)) → Except PyErr (List (String × Nat)))
    (fnames : List String) (D_1 : List (List Int)) (e : PyErr)
    (h : sched (mkArgs fnames D_1) = Except.error e) :
    runSubmission sched fnames D_1 = Except.error e ∧
    collectCell (runSubmission sched fnames D_1) = ([], Except.error e) := by
  refine ⟨h, ?_⟩
  unfold collectCell runSubmission
  rw [h]

theorem submission_error_propagation_wit :
    runSubmission (fun _ => Except.error badYield) ["a.png"] [[0]] =
      Except.error badYield ∧
    collectCell (runSubmission (fun _ => Except.error badYield) ["a.png"] [[0]]) =
      ([], Except.error badYield) :=
  submission_error_propagation (fun _ => Except.error badYield)
    ["a.png"] [[0]] badYield rfl

/-- Claim C8: `get_num_matches` never mutates the reference descriptor
array passed to it: in the store-passing translation the heap of
descriptor arrays comes back untouched — so the caller's `D_src` is
element-for-element unchanged — and the returned value is exactly the pure
function of the fetched array, the computed descriptor set `D` being
consumed as created, never updated. -/
theorem get_num_matchesHeap_frame (lib : ExtLib)
    (heap : Nat → List (List Int)) (fname : String) (dsrcRef : Nat) :
    (get_num_matchesHeap lib heap fname dsrcRef).1 = heap ∧
    (get_num_matchesHeap lib heap fname dsrcRef).2 =
      get_num_matches lib (fname, heap dsrcRef) := by
  unfold get_num_matchesHeap get_num_matches
  cases lib.imread fname IMREAD_GRAYSCALE with
  | error e => exact ⟨rfl, rfl⟩
  | ok frame =>
      dsimp only
      cases lib.detectAndCompute 5000 frame with
      | error e => exact ⟨rfl, rfl⟩
      | ok D =>
          dsimp only
          cases bfmatch (heap dsrcRef) D with
          | error e => exact ⟨rfl, rfl⟩
          | ok ms => exact ⟨rfl, rfl⟩

/-- Claim C9: `get_num_matches` is deterministic — two runs with the same
vision library against filesystems that hold the same image content at the
given path return identical results: same printed output, same path, same
match count. -/
theorem get_num_matches_deterministic
    (fs1 fs2 : String → Nat → Except PyErr Img)
    (dc : Nat → Img → Except PyErr (List (List Int)))
    (fname : String) (D_src : List (List Int))
    (h : fs1 fname IMREAD_GRAYSCALE = fs2 fname IMREAD_GRAYSCALE) :
    get_num_matches ⟨fs1, dc⟩ (fname, D_src) =
      get_num_matches ⟨fs2, dc⟩ (fname, D_src) := by
  unfold get_num_matches
  dsimp only
  rw [h]

theorem get_num_matches_deterministic_wit :
    get_num_matches ⟨libW.imread, libW.detectAndCompute⟩ ("a.png", [[0]]) =
      get_num_matches ⟨fsW2, libW.detectAndCompute⟩ ("a.png", [[0]]) :=
  get_num_matches_deterministic libW.imread fsW2 libW.detectAndCompute
    "a.png" [[0]] rfl

/-- Claim C10: whenever `get_num_matches` returns normally, the returned
match count is at most the number of reference descriptors and at most the
number of descriptors detected in the query image — the cross-check pairs
each descriptor with at most one partner on either side. -/
theorem get_num_matches_count_le (lib : ExtLib) (fname : String)
    (D_src : List (List Int)) (img : Img) (D : List (List Int))
    (h1 : lib.imread fname IMREAD_GRAYSCALE = .ok img)
    (h2 : lib.detectAndCompute 5000 img = .ok D)
    (f : String) (n : Nat)
    (h : (get_num_matches lib (fname, D_src)).2 = Except.ok (f, n)) :
    n ≤ D_src.length ∧ n ≤ D.length := by
  cases hdim : dimCompatible D_src D with
  | true =>
      rw [get_num_matches_run lib fname D_src img D h1 h2 hdim] at h
      have h' : Except.ok (fname, matchCount D_src D) =
          (Except.ok (f, n) : Except PyErr (String × Nat)) := h
      have h'' : (fname, matchCount D_src D) = (f, n) := Except.ok.inj h'
      have hn : matchCount D_src D = n := congrArg Prod.snd h''
      rw [← hn]
      exact ⟨matchCount_le_left _ _, matchCount_le_right _ _⟩
  | false =>
      rw [get_num_matches_run_mismatch lib fname D_src img D h1 h2 hdim] at h
      simp at h

theorem get_num_matches_count_le_wit :
    (1 : Nat) ≤ ([[0]] : List (List Int)).length ∧
      (1 : Nat) ≤ ([[0]] : List (List Int)).length :=
  get_num_matches_count_le libW "a.png" [[0]] imgW [[0]] rfl rfl "a.png" 1 rfl
